import Mathlib

/-!
# Verification of the KiraAI message-processing pipeline

Shallow embedding of the core message pipeline of the KiraAI chat-bot
runtime, together with proofs of the specified properties.

The embedded code comes from:
* `src/core/message_manager.py` — `MessageProcessor` (inbound buffer /
  debounce, agent loop, dispatcher `send_xml_messages`, protocol codec
  `_parse_and_generate_messages` / `_add_message_ids`);
* `src/core/chat/memory_manager.py` — `MemoryManager.update_memory`;
* `src/core/config/config_loader.py` — `KiraConfig.get_config`;
* `src/core/provider/src/siliconflow_cn/provider.py` and
  `src/core/provider/src/openai_provider.py` — the tool-execution loops
  inside the providers' `chat` methods.

External collaborators (the LLM provider client used for `agent_run` and
the XML-repair `chat` call, platform adapters, the Python `xml.etree`
parser and `json.loads`) are modelled as explicit function parameters, so
every theorem quantifies over their behavior.
-/

namespace KiraAI

/-- The closed message-element variant set from
`src/core/chat/message_elements.py`.  Constructor names follow the Python
classes `Text`, `Image`, `At`, `Reply`, `Emoji`, `Sticker`, `Record`,
`Notice`, `Poke`. -/
inductive MElem where
  | Text (text : String)
  | Image (url : Option String) (base64 : Option String)
  | At (pid : String) (nickname : Option String)
  | Reply (message_id : String) (message_content : Option String)
  | Emoji (emoji_id : String)
  | Sticker (sticker_id : Option String) (sticker_bs64 : Option String)
  | Record (bs64 : String)
  | Notice (text : String)
  | Poke (pid : String)
  deriving DecidableEq, Repr

/-- A reply batch: the parse result of the protocol codec — an ordered
list of messages to send, each an ordered list of elements
(`message_list` in `_parse_xml_msg`). -/
abbrev ReplyBatch := List (List MElem)

/-! ## Memory store: `MemoryManager.update_memory`
(`src/core/chat/memory_manager.py`, lines 153–159)

```python
def update_memory(self, session, new_chunk):
    with self.memory_lock:
        self.chat_memory[session]["memory"].append(new_chunk)
        if len(self.chat_memory[session]["memory"]) > self.max_memory_length:
            self.chat_memory[session]["memory"] = self.chat_memory[session]["memory"][1:]
        self._save_memory(...)
```

The chunk values themselves are opaque to this operation, so the state is
a `List α`. -/

/-- One session's chunk list after `update_memory`: append the new chunk,
then drop the first entry if the configured cap is exceeded. -/
def update_memory {α : Type} (memory : List α) (max_memory_length : ℕ)
    (new_chunk : α) : List α :=
  let appended := memory ++ [new_chunk]
  if appended.length > max_memory_length then appended.drop 1 else appended

/-! ## Protocol codec: `MessageProcessor._parse_and_generate_messages`
(`src/core/message_manager.py`, lines 371–398)

```python
try:
    message_list = await self._parse_xml_msg(xml_data)
    return message_list, xml_data
except Exception:
    fixed_xml = xml_data
    try:
        llm_resp = await self.llm_api.chat([...fix this xml...])
        fixed_xml = llm_resp.text_response
        message_list = await self._parse_xml_msg(fixed_xml)
        return message_list, fixed_xml
    except Exception:
        return [[MessageType.Text(fixed_xml)]], fixed_xml
```

`_parse_xml_msg` (which wraps the text in `<root>…</root>` and feeds it to
`xml.etree`, possibly generating images/voice for some tags) is modelled
as a parameter `parse_xml_msg : String → Option ReplyBatch`, `none`
standing for a raised exception.  The corrective LLM call is the
collaborator `chat : String → Option String`, `none` standing for a
failure of the call itself (in which case `fixed_xml` is still the raw
input when the `except` branch runs). -/

/-- Codec parse with repair and fallback, returning
`(message_list, actual_xml)`. -/
def parse_and_generate_messages (parse_xml_msg : String → Option ReplyBatch)
    (chat : String → Option String) (xml_data : String) :
    ReplyBatch × String :=
  match parse_xml_msg xml_data with
  | some message_list => (message_list, xml_data)
  | none =>
    match chat xml_data with
    | none => ([[MElem.Text xml_data]], xml_data)
    | some fixed_xml =>
      match parse_xml_msg fixed_xml with
      | some message_list => (message_list, fixed_xml)
      | none => ([[MElem.Text fixed_xml]], fixed_xml)

/-! ## Dispatcher: `MessageProcessor.send_xml_messages`
(`src/core/message_manager.py`, lines 264–299)

```python
message_ids = []
resp_list, actual_xml = await self._parse_and_generate_messages(xml)
parts = target.split(":")
if len(parts) != 3:
    raise ValueError("invalid target, must follow the form of <adapter>:<dm|gm>:<id>")
adapter_name, chat_type, pid = parts
for message_list in resp_list:
    if message_list:
        message_obj = MessageChain(message_list)
        if chat_type == "dm":
            message_id = await get_adapter_by_name(adapter_name).send_direct_message(pid, message_obj)
        elif chat_type == "gm":
            message_id = await get_adapter_by_name(adapter_name).send_group_message(pid, message_obj)
        else:
            message_id = None
        if not message_id:
            message_id = ''
        message_ids.append(message_id)
        await asyncio.sleep(random.uniform(self.min_message_delay, self.max_message_delay))
    else:
        message_ids.append('')
return message_ids, actual_xml
```

The adapter sends are collaborators; we record every attempted send in a
trace and every executed pacing sleep (with the delay value that
`random.uniform` produced, modelled as the draw sequence
`uniform_delay : ℕ → ℚ`). -/

/-- Helper for `pySplit`: split the remaining characters on the
separator, `acc` holding the (reversed) characters of the current
field. -/
def pySplitAux (sep : Char) : List Char → List Char → List String
  | [], acc => [String.mk acc.reverse]
  | c :: cs, acc =>
    if c = sep then String.mk acc.reverse :: pySplitAux sep cs []
    else pySplitAux sep cs (c :: acc)

/-- Python `str.split` with a one-character separator, as used by
`target.split(":")` and the `"."`-path walk of `get_config`:
`"a:b:c" ↦ ["a","b","c"]`, `"" ↦ [""]`, `"a::b" ↦ ["a","","b"]`. -/
def pySplit (sep : Char) (s : String) : List String :=
  pySplitAux sep s.toList []

/-- One adapter send call attempted by the dispatcher. -/
structure SendCall where
  adapter_name : String
  chat_type : String
  pid : String
  message : List MElem
  deriving DecidableEq, Repr

/-- Dispatcher environment: the adapter send operations (returning the
platform message id, `none` on failure) and the successive values drawn
by `random.uniform(min_message_delay, max_message_delay)`. -/
structure SendEnv where
  send_direct_message : String → String → List MElem → Option String
  send_group_message : String → String → List MElem → Option String
  uniform_delay : ℕ → ℚ

/-- The dispatcher's send loop over `resp_list`; `k` counts the sleeps
already performed so the `k`-th sleep uses draw `uniform_delay k`.
Returns `(message_ids, send trace, sleep trace)`. -/
def send_loop (env : SendEnv) (adapter_name chat_type pid : String) :
    List (List MElem) → ℕ → List String × List SendCall × List ℚ
  | [], _ => ([], [], [])
  | message_list :: rest, k =>
    if message_list.isEmpty then
      let r := send_loop env adapter_name chat_type pid rest k
      ("" :: r.1, r.2)
    else
      let raw_id : Option String :=
        if chat_type = "dm" then env.send_direct_message adapter_name pid message_list
        else if chat_type = "gm" then env.send_group_message adapter_name pid message_list
        else none
      -- `if not message_id: message_id = ''` — `None` and `''` are both falsy
      let message_id := raw_id.getD ""
      let r := send_loop env adapter_name chat_type pid rest (k + 1)
      (message_id :: r.1,
       ⟨adapter_name, chat_type, pid, message_list⟩ :: r.2.1,
       env.uniform_delay k :: r.2.2)

/-- `send_xml_messages`: parse the XML (with repair/fallback), validate
the target, then run the send loop.  The first component is the Python
return value (`Except` models the raised `ValueError`); the second and
third are the traces of adapter sends and pacing sleeps. -/
def send_xml_messages (env : SendEnv) (parse_xml_msg : String → Option ReplyBatch)
    (chat : String → Option String) (target xml : String) :
    Except String (List String × String) × List SendCall × List ℚ :=
  let parsed := parse_and_generate_messages parse_xml_msg chat xml
  let parts := pySplit ':' target
  if parts.length ≠ 3 then
    (.error "invalid target, must follow the form of <adapter>:<dm|gm>:<id>", [], [])
  else
    let adapter_name := parts.getD 0 ""
    let chat_type := parts.getD 1 ""
    let pid := parts.getD 2 ""
    let r := send_loop env adapter_name chat_type pid parsed.1 0
    (.ok (r.1, parsed.2), r.2)

/-! ## Concrete fixtures used by witnesses and counterexamples -/

/-- A parser that fails on every input (models `_parse_xml_msg` raising on
every text it is given). -/
def pmNone : String → Option ReplyBatch := fun _ => none

/-- A parser that succeeds exactly on the text `"fixed"`. -/
def pmFix : String → Option ReplyBatch :=
  fun s => if s = "fixed" then some [[MElem.Text "hi"]] else none

/-- A corrective LLM call that always returns the text `"fixed"`. -/
def chatFix : String → Option String := fun _ => some "fixed"

/-- A parser returning a three-message batch for every input. -/
def pm3 : String → Option ReplyBatch :=
  fun _ => some [[MElem.Text "a"], [MElem.Text "b"], [MElem.Text "c"]]

/-- An adapter environment whose sends always succeed and whose
`random.uniform` draws are all `1`. -/
def envUnit : SendEnv :=
  { send_direct_message := fun _ _ _ => some "id"
    send_group_message := fun _ _ _ => some "id"
    uniform_delay := fun _ => 1 }

/-! ## Claim C7 -/

/-- Claim C7: for every session whose memory holds exactly the configured
cap of chunks (the cap being positive, so that an oldest chunk exists),
appending one new chunk evicts exactly the oldest chunk (index 0) and no
other, preserving the order of the remaining chunks, and the chunk count
stays equal to the cap. -/
theorem claim_C7_fifo_eviction {α : Type} (memory : List α) (cap : ℕ)
    (new_chunk : α) (hlen : memory.length = cap) (hpos : 0 < cap) :
    update_memory memory cap new_chunk = memory.drop 1 ++ [new_chunk] ∧
    (update_memory memory cap new_chunk).length = cap := by
  rcases memory with _ | ⟨a, t⟩
  · simp at hlen; omega
  · have hcond : (a :: t ++ [new_chunk]).length > cap := by
      simp at hlen ⊢; omega
    unfold update_memory
    rw [if_pos hcond]
    refine ⟨by simp, ?_⟩
    simp at hlen ⊢
    omega

/-- Witness for claim C7: with a cap of 10 and a memory of exactly 10
chunks, appending an 11th chunk drops exactly the chunk at index 0. -/
theorem claim_C7_fifo_eviction_witness :
    (([0, 1, 2, 3, 4, 5, 6, 7, 8, 9] : List ℕ).length = 10 ∧ 0 < 10) ∧
    (update_memory ([0, 1, 2, 3, 4, 5, 6, 7, 8, 9] : List ℕ) 10 10 =
        ([0, 1, 2, 3, 4, 5, 6, 7, 8, 9] : List ℕ).drop 1 ++ [10] ∧
      (update_memory ([0, 1, 2, 3, 4, 5, 6, 7, 8, 9] : List ℕ) 10 10).length = 10) :=
  ⟨⟨by decide, by decide⟩,
   claim_C7_fifo_eviction [0, 1, 2, 3, 4, 5, 6, 7, 8, 9] 10 10 (by decide) (by decide)⟩

/-! ## Claim C3 -/

/-- Counterexample to claim C3 as stated: `"raw"` fails the primary parse,
the corrective call returns `"fixed"`, and the re-parse of `"fixed"` also
fails; the code then returns the *corrected* text `"fixed"` wrapped as the
single Text element together with `"fixed"` as the effective XML — not the
raw input `"raw"` as the claim requires. -/
theorem claim_C3_counterexample :
    pmNone "raw" = none ∧ chatFix "raw" = some "fixed" ∧ pmNone "fixed" = none ∧
    parse_and_generate_messages pmNone chatFix "raw" ≠ ([[MElem.Text "raw"]], "raw") ∧
    parse_and_generate_messages pmNone chatFix "raw" = ([[MElem.Text "fixed"]], "fixed") :=
  ⟨rfl, rfl, rfl, by decide, rfl⟩

/-- Claim C3 (amended): for every input on which the primary parse fails,
the total-failure fallback returns a batch of exactly one message holding
exactly one Text element wrapping `fixed_xml` — the LLM-corrected text if
the corrective call produced one, and the raw input only if the corrective
call itself failed — together with that same `fixed_xml` as the effective
XML; `parse_and_generate_messages` is a total function (never raises). -/
theorem claim_C3_total_failure_fallback (parse_xml_msg : String → Option ReplyBatch)
    (chat : String → Option String) (xml_data : String)
    (h1 : parse_xml_msg xml_data = none) :
    (chat xml_data = none →
      parse_and_generate_messages parse_xml_msg chat xml_data =
        ([[MElem.Text xml_data]], xml_data)) ∧
    (∀ fixed_xml, chat xml_data = some fixed_xml → parse_xml_msg fixed_xml = none →
      parse_and_generate_messages parse_xml_msg chat xml_data =
        ([[MElem.Text fixed_xml]], fixed_xml)) := by
  constructor
  · intro h2
    unfold parse_and_generate_messages
    rw [h1, h2]
  · intro fixed_xml h2 h3
    simp only [parse_and_generate_messages, h1, h2, h3]

/-- Witness for claim C3 (amended): a total failure where the corrective
call produced `"fixed"`, whose re-parse fails; the fallback wraps
`"fixed"`. -/
theorem claim_C3_total_failure_fallback_witness :
    pmNone "raw" = none ∧ chatFix "raw" = some "fixed" ∧ pmNone "fixed" = none ∧
    parse_and_generate_messages pmNone chatFix "raw" =
      ([[MElem.Text "fixed"]], "fixed") :=
  ⟨rfl, rfl, rfl,
   (claim_C3_total_failure_fallback pmNone chatFix "raw" rfl).2 "fixed" rfl rfl⟩

/-! ## Claim C4 -/

/-- Claim C4: on every exit path of the codec parse, the effective XML
returned alongside the batch is exactly the text from which the batch was
derived — either the batch is the successful parse of the effective XML,
or it is the fallback wrapping the effective XML itself as one Text
element; and whenever a repair occurred (primary parse failed and the
corrective call returned `fixed_xml`), the effective XML is that
`fixed_xml`, never the original input. -/
theorem claim_C4_effective_xml_invariant (parse_xml_msg : String → Option ReplyBatch)
    (chat : String → Option String) (xml_data : String) :
    (parse_xml_msg (parse_and_generate_messages parse_xml_msg chat xml_data).2 =
        some (parse_and_generate_messages parse_xml_msg chat xml_data).1 ∨
      (parse_and_generate_messages parse_xml_msg chat xml_data).1 =
        [[MElem.Text (parse_and_generate_messages parse_xml_msg chat xml_data).2]]) ∧
    (parse_xml_msg xml_data = none → ∀ fixed_xml, chat xml_data = some fixed_xml →
      (parse_and_generate_messages parse_xml_msg chat xml_data).2 = fixed_xml) := by
  unfold parse_and_generate_messages
  rcases h1 : parse_xml_msg xml_data with _ | ml
  · rcases h2 : chat xml_data with _ | y
    · simp [h1, h2]
    · rcases h3 : parse_xml_msg y with _ | ml2
      · simp [h2, h3]
      · simp [h2, h3]
  · simp [h1]

/-- Witness for claim C4: a run in which the primary parse of `"raw"`
fails and the repair produces `"fixed"`; the effective XML is `"fixed"`. -/
theorem claim_C4_effective_xml_invariant_witness :
    pmFix "raw" = none ∧ chatFix "raw" = some "fixed" ∧
    (parse_and_generate_messages pmFix chatFix "raw").2 = "fixed" :=
  ⟨by decide, rfl,
   (claim_C4_effective_xml_invariant pmFix chatFix "raw").2 (by decide) "fixed" rfl⟩

/-! ## Claim C10 -/

/-- Claim C10: if splitting the target on `":"` does not yield exactly
three parts, `send_xml_messages` raises `ValueError` and attempts no
adapter send (empty send trace); if it yields exactly three parts, no such
error is raised and the call returns normally. -/
theorem claim_C10_target_validation (env : SendEnv)
    (parse_xml_msg : String → Option ReplyBatch) (chat : String → Option String)
    (target xml : String) :
    ((pySplit ':' target).length ≠ 3 →
      send_xml_messages env parse_xml_msg chat target xml =
        (.error "invalid target, must follow the form of <adapter>:<dm|gm>:<id>",
         [], [])) ∧
    ((pySplit ':' target).length = 3 →
      ∃ message_ids actual_xml,
        (send_xml_messages env parse_xml_msg chat target xml).1 =
          .ok (message_ids, actual_xml)) := by
  constructor
  · intro h
    unfold send_xml_messages
    rw [if_pos h]
  · intro h
    unfold send_xml_messages
    rw [if_neg (by omega)]
    exact ⟨_, _, rfl⟩

/-- Witness for claim C10: `"a:b"` (two parts) raises; `"q:dm:1"` (three
parts) returns normally. -/
theorem claim_C10_target_validation_witness :
    ((pySplit ':' "a:b").length ≠ 3 ∧
      send_xml_messages envUnit pm3 chatFix "a:b" "x" =
        (.error "invalid target, must follow the form of <adapter>:<dm|gm>:<id>",
         [], [])) ∧
    ((pySplit ':' "q:dm:1").length = 3 ∧
      ∃ message_ids actual_xml,
        (send_xml_messages envUnit pm3 chatFix "q:dm:1" "x").1 =
          .ok (message_ids, actual_xml)) :=
  ⟨⟨by decide, (claim_C10_target_validation envUnit pm3 chatFix "a:b" "x").1 (by decide)⟩,
   ⟨by decide, (claim_C10_target_validation envUnit pm3 chatFix "q:dm:1" "x").2 (by decide)⟩⟩

/-! ## Claim C6 -/

/-- When every message of `resp_list` is nonempty, the send loop performs
one pacing sleep per message, drawing the consecutive `random.uniform`
values. -/
lemma send_loop_sleeps_all_nonempty (env : SendEnv)
    (adapter_name chat_type pid : String) (ls : List (List MElem)) (k : ℕ)
    (h : ∀ ml ∈ ls, ml ≠ []) :
    (send_loop env adapter_name chat_type pid ls k).2.2 =
      (List.range' k ls.length).map env.uniform_delay := by
  induction ls generalizing k with
  | nil => simp [send_loop]
  | cons ml rest ih =>
    have hml : ¬ ml.isEmpty := by
      simp only [List.isEmpty_iff]
      exact h ml (by simp)
    unfold send_loop
    rw [if_neg hml]
    simp only [List.length_cons, List.range'_succ, List.map_cons]
    rw [ih (k + 1) (fun m hm => h m (by simp [hm]))]

/-- A list whose entries all lie in `[mn, mx]` has sum between
`mn * length` and `mx * length`. -/
lemma sum_bounds_of_mem_bounds (l : List ℚ) (mn mx : ℚ)
    (h : ∀ x ∈ l, mn ≤ x ∧ x ≤ mx) :
    mn * l.length ≤ l.sum ∧ l.sum ≤ mx * l.length := by
  induction l with
  | nil => simp
  | cons a t ih =>
    obtain ⟨h1, h2⟩ := ih (fun x hx => h x (by simp [hx]))
    obtain ⟨ha1, ha2⟩ := h a (by simp)
    simp only [List.length_cons, List.sum_cons]
    push_cast
    constructor <;> nlinarith [h1, h2, ha1, ha2]

/-- Counterexample to claim C6 as stated: a reply batch of `k = 3`
messages triggers 3 pacing sleeps — one after *every* send, including the
last — not `k - 1 = 2` sleeps as the claim requires. -/
theorem claim_C6_counterexample :
    (parse_and_generate_messages pm3 chatFix "x").1.length = 3 ∧
    (4 / 5 : ℚ) ≤ 1 ∧ (1 : ℚ) ≤ 3 / 2 ∧
    (send_xml_messages envUnit pm3 chatFix "q:dm:1" "x").2.2.length = 3 ∧
    (3 : ℕ) ≠ 3 - 1 :=
  ⟨rfl, by norm_num, by norm_num, rfl, by decide⟩

/-- Claim C6 (amended): for every reply batch of `k` nonempty messages,
the Dispatcher performs exactly `k` pacing sleeps — one after each send,
including the last — each drawn from `[min_message_delay,
max_message_delay]`; so sending 3 messages with bounds `0.8` and `1.5`
enforces total pacing between `2.4`s and `4.5`s. -/
theorem claim_C6_pacing (env : SendEnv)
    (parse_xml_msg : String → Option ReplyBatch) (chat : String → Option String)
    (target xml : String) (mn mx : ℚ)
    (hparts : (pySplit ':' target).length = 3)
    (hne : ∀ ml ∈ (parse_and_generate_messages parse_xml_msg chat xml).1, ml ≠ [])
    (hdraw : ∀ i, mn ≤ env.uniform_delay i ∧ env.uniform_delay i ≤ mx) :
    (send_xml_messages env parse_xml_msg chat target xml).2.2.length =
      (parse_and_generate_messages parse_xml_msg chat xml).1.length ∧
    mn * (parse_and_generate_messages parse_xml_msg chat xml).1.length ≤
      (send_xml_messages env parse_xml_msg chat target xml).2.2.sum ∧
    (send_xml_messages env parse_xml_msg chat target xml).2.2.sum ≤
      mx * (parse_and_generate_messages parse_xml_msg chat xml).1.length := by
  have hs : (send_xml_messages env parse_xml_msg chat target xml).2.2 =
      (List.range' 0 (parse_and_generate_messages parse_xml_msg chat xml).1.length).map
        env.uniform_delay := by
    unfold send_xml_messages
    rw [if_neg (by omega)]
    exact send_loop_sleeps_all_nonempty env _ _ _ _ 0 hne
  rw [hs]
  obtain ⟨hlo, hhi⟩ := sum_bounds_of_mem_bounds
    ((List.range' 0 (parse_and_generate_messages parse_xml_msg chat xml).1.length).map
      env.uniform_delay) mn mx
    (by
      intro x hx
      simp only [List.mem_map] at hx
      obtain ⟨i, _, rfl⟩ := hx
      exact hdraw i)
  refine ⟨by simp, ?_, ?_⟩
  · simpa using hlo
  · simpa using hhi

/-- Witness for claim C6 (amended): 3 nonempty messages, draws all `1`
inside `[4/5, 3/2]`; 3 sleeps totalling between `12/5` and `9/2`. -/
theorem claim_C6_pacing_witness :
    ((pySplit ':' "q:dm:1").length = 3 ∧
      (∀ ml ∈ (parse_and_generate_messages pm3 chatFix "x").1, ml ≠ []) ∧
      (∀ i, (4 / 5 : ℚ) ≤ envUnit.uniform_delay i ∧ envUnit.uniform_delay i ≤ 3 / 2)) ∧
    ((send_xml_messages envUnit pm3 chatFix "q:dm:1" "x").2.2.length =
        (parse_and_generate_messages pm3 chatFix "x").1.length ∧
      (4 / 5 : ℚ) * (parse_and_generate_messages pm3 chatFix "x").1.length ≤
        (send_xml_messages envUnit pm3 chatFix "q:dm:1" "x").2.2.sum ∧
      (send_xml_messages envUnit pm3 chatFix "q:dm:1" "x").2.2.sum ≤
        (3 / 2 : ℚ) * (parse_and_generate_messages pm3 chatFix "x").1.length) :=
  ⟨⟨by decide, by decide, fun i => by norm_num [envUnit]⟩,
   claim_C6_pacing envUnit pm3 chatFix "q:dm:1" "x" (4 / 5) (3 / 2)
     (by decide) (by decide) (fun i => by norm_num [envUnit])⟩

/-! ## Id-annotation codec: `MessageProcessor._add_message_ids`
(`src/core/message_manager.py`, lines 400–413)

```python
try:
    root = ET.fromstring(f"<root>{xml_data}</root>")
    for i, msg in enumerate(root.findall("msg")):
        if i < len(message_ids):
            msg.set("message_id", message_ids[i])
    return ET.tostring(root, encoding='unicode', method='xml')[6:-7]
except Exception:
    return xml_data
```

`xml.etree` is external; `fromstring` is modelled as a parameter returning
the root's direct-children element list (`none` = parse raised), and
`tostring` as a parameter standing for serialization followed by the
`[6:-7]` strip of the synthetic `<root>` wrapper. -/

/-- An `xml.etree` element: tag, attribute list, child elements. -/
inductive XElem : Type where
  | mk : String → List (String × String) → List XElem → XElem
  deriving Repr

/-- The element's tag. -/
def XElem.tag : XElem → String
  | .mk t _ _ => t

/-- The element's attribute list. -/
def XElem.attrib : XElem → List (String × String)
  | .mk _ a _ => a

/-- `dict`-style attribute update: overwrite the value of an existing key
in place, otherwise append the new pair. -/
def setAttrList : List (String × String) → String → String → List (String × String)
  | [], key, value => [(key, value)]
  | (k, v) :: rest, key, value =>
    if k = key then (key, value) :: rest else (k, v) :: setAttrList rest key value

/-- `Element.set(key, value)` of `xml.etree`. -/
def XElem.set : XElem → String → String → XElem
  | .mk t a c, key, value => .mk t (setAttrList a key value) c

/-- `root.findall("msg")`: the direct children with tag `"msg"`, in
document order. -/
def msg_children (children : List XElem) : List XElem :=
  children.filter (fun e => e.tag = "msg")

/-- The annotation pass over the root's children: the `i`-th `msg` child
(counting from `i₀`) gets `message_id := message_ids[i]` when
`i < len(message_ids)`; other children are untouched. -/
def set_message_ids (message_ids : List String) : List XElem → ℕ → List XElem
  | [], _ => []
  | e :: rest, i =>
    if e.tag = "msg" then
      (if i < message_ids.length then e.set "message_id" (message_ids.getD i "") else e)
        :: set_message_ids message_ids rest (i + 1)
    else e :: set_message_ids message_ids rest i

/-- `_add_message_ids`: re-parse the effective XML inside a synthetic
root, annotate the `msg` children, serialize; on parse failure return the
input unchanged. -/
def add_message_ids (fromstring : String → Option (List XElem))
    (tostring : List XElem → String) (xml_data : String)
    (message_ids : List String) : String :=
  match fromstring ("<root>" ++ xml_data ++ "</root>") with
  | none => xml_data
  | some children => tostring (set_message_ids message_ids children 0)

/-! ## Claim C5 -/

/-- `Element.set` does not change the tag. -/
lemma XElem.tag_set (e : XElem) (key value : String) :
    (e.set key value).tag = e.tag := by
  cases e; rfl

/-- The `msg` children of the annotated child list are exactly the
original `msg` children, the one at (absolute) position `i` updated with
`message_ids[i]` when in range. -/
lemma msg_children_set_message_ids (message_ids : List String)
    (children : List XElem) (i₀ : ℕ) :
    msg_children (set_message_ids message_ids children i₀) =
      ((msg_children children).enumFrom i₀).map
        (fun p => if p.1 < message_ids.length
          then p.2.set "message_id" (message_ids.getD p.1 "") else p.2) := by
  simp only [msg_children]
  induction children generalizing i₀ with
  | nil => simp [set_message_ids]
  | cons e rest ih =>
    by_cases htag : e.tag = "msg"
    · by_cases hi : i₀ < message_ids.length
      · simp [set_message_ids, htag, hi, List.filter_cons, XElem.tag_set,
          List.enumFrom_cons, ih (i₀ + 1)]
      · simp [set_message_ids, htag, hi, List.filter_cons,
          List.enumFrom_cons, ih (i₀ + 1)]
    · simp [set_message_ids, htag, List.filter_cons, ih i₀]

/-- Claim C5: `_add_message_ids` re-parses the effective XML wrapped in a
synthetic root; on success it serializes the child list in which, for
each `i` below the id-list length, the `i`-th `msg` element in document
order carries `message_id = message_ids[i]`, `msg` elements beyond the id
list being unchanged; on re-parse failure it returns the input text
unchanged (and, being a total function, never raises). -/
theorem claim_C5_id_annotation_contract (fromstring : String → Option (List XElem))
    (tostring : List XElem → String) (xml_data : String) (message_ids : List String) :
    (fromstring ("<root>" ++ xml_data ++ "</root>") = none →
      add_message_ids fromstring tostring xml_data message_ids = xml_data) ∧
    (∀ children, fromstring ("<root>" ++ xml_data ++ "</root>") = some children →
      add_message_ids fromstring tostring xml_data message_ids =
        tostring (set_message_ids message_ids children 0) ∧
      msg_children (set_message_ids message_ids children 0) =
        (msg_children children).enum.map
          (fun p => if p.1 < message_ids.length
            then p.2.set "message_id" (message_ids.getD p.1 "") else p.2)) := by
  constructor
  · intro h
    unfold add_message_ids
    rw [h]
  · intro children h
    constructor
    · unfold add_message_ids
      rw [h]
    · rw [msg_children_set_message_ids message_ids children 0]
      rfl

/-- Witness for claim C5: two `msg` elements and one id — the first gets
the id, the second is unchanged; a failing parse returns the input. -/
theorem claim_C5_id_annotation_contract_witness :
    ((fun s => if s = "<root>A</root>"
        then some [XElem.mk "msg" [] [], XElem.mk "msg" [] []]
        else none : String → Option (List XElem)) "<root>B</root>" = none ∧
      add_message_ids
        (fun s => if s = "<root>A</root>"
          then some [XElem.mk "msg" [] [], XElem.mk "msg" [] []] else none)
        (fun _ => "out") "B" ["7"] = "B") ∧
    (add_message_ids
        (fun s => if s = "<root>A</root>"
          then some [XElem.mk "msg" [] [], XElem.mk "msg" [] []] else none)
        (fun _ => "out") "A" ["7"] =
      (fun _ => "out" : List XElem → String)
        (set_message_ids ["7"] [XElem.mk "msg" [] [], XElem.mk "msg" [] []] 0) ∧
      msg_children (set_message_ids ["7"] [XElem.mk "msg" [] [], XElem.mk "msg" [] []] 0) =
        (msg_children [XElem.mk "msg" [] [], XElem.mk "msg" [] []]).enum.map
          (fun p => if p.1 < (["7"] : List String).length
            then p.2.set "message_id" ((["7"] : List String).getD p.1 "") else p.2)) :=
  ⟨⟨rfl,
    (claim_C5_id_annotation_contract _ (fun _ => "out") "B" ["7"]).1 rfl⟩,
   (claim_C5_id_annotation_contract _ (fun _ => "out") "A" ["7"]).2
     [XElem.mk "msg" [] [], XElem.mk "msg" [] []] rfl⟩

/-! ## Configuration: `KiraConfig.get_config`
(`src/core/config/config_loader.py`, lines 95–103) and the
`max_tool_loop` read in `MessageProcessor.handle_im_message`
(`src/core/message_manager.py`, lines 195–202)

```python
def get_config(self, key: str, default: Optional = None):
    keys = key.split(".")
    v = self
    for k in keys:
        if isinstance(v, dict) and k in v:
            v = v[k]
        else:
            return default
    return v
```

```python
# Get max tool loop config, defaults to 2 if not a valid integer
max_tool_loop = self.kira_config.get_config("bot_config.agent.max_tool_loop")
try:
    max_tool_loop = int(max_tool_loop)
except ValueError:
    max_tool_loop = 2
```
-/

/-- Python values as they appear in the loaded JSON configuration. -/
inductive PyVal : Type where
  | vNone : PyVal
  | vStr : String → PyVal
  | vInt : ℤ → PyVal
  | vDict : List (String × PyVal) → PyVal
  deriving Repr

/-- Exceptions raised by `int(...)`. -/
inductive PyErr : Type where
  | valueError
  | typeError
  deriving DecidableEq, Repr

/-- Key lookup in a Python dict (modelled as an association list). -/
def dictLookup (key : String) : List (String × PyVal) → Option PyVal
  | [] => none
  | (k, v) :: rest => if k = key then some v else dictLookup key rest

/-- The `for k in keys` walk of `get_config`, returning the default
(`None`) as soon as the current value is not a dict containing `k`. -/
def get_config_walk : List String → PyVal → PyVal
  | [], v => v
  | k :: ks, v =>
    match v with
    | .vDict entries =>
      match dictLookup k entries with
      | some v' => get_config_walk ks v'
      | none => .vNone
    | _ => .vNone

/-- `KiraConfig.get_config(key)` with the default `None`. -/
def get_config (cfg : PyVal) (key : String) : PyVal :=
  get_config_walk (pySplit '.' key) cfg

/-- Decimal value of a nonempty all-digit character list, else `none`. -/
def digitsVal (cs : List Char) : Option ℕ :=
  if cs ≠ [] ∧ cs.all Char.isDigit then
    some (cs.foldl (fun a c => a * 10 + (c.toNat - 48)) 0)
  else none

/-- Leading and trailing whitespace removal. -/
def stripWs (cs : List Char) : List Char :=
  ((cs.dropWhile Char.isWhitespace).reverse.dropWhile Char.isWhitespace).reverse

/-- CPython `int(str)` on the common forms: optional surrounding
whitespace, optional sign, nonempty decimal digits; everything else
raises `ValueError` (digit-group underscores are not modelled). -/
def pyIntOfString (s : String) : Option ℤ :=
  match stripWs s.toList with
  | '+' :: rest => (digitsVal rest).map Int.ofNat
  | '-' :: rest => (digitsVal rest).map (fun n => -(n : ℤ))
  | cs => (digitsVal cs).map Int.ofNat

/-- CPython `int(x)`: ints pass through, strings are parsed
(`ValueError` on failure), `None` and dicts raise `TypeError`. -/
def py_int : PyVal → Except PyErr ℤ
  | .vInt n => .ok n
  | .vStr s =>
    match pyIntOfString s with
    | some n => .ok n
    | none => .error .valueError
  | .vNone => .error .typeError
  | .vDict _ => .error .typeError

/-- The `max_tool_loop` read of `handle_im_message`: `int(...)` guarded by
`except ValueError` only — a `TypeError` (e.g. from `int(None)` when the
key is absent) is *not* caught and propagates. -/
def get_max_tool_loop (cfg : PyVal) : Except PyErr ℤ :=
  match py_int (get_config cfg "bot_config.agent.max_tool_loop") with
  | .ok n => .ok n
  | .error .valueError => .ok 2
  | .error .typeError => .error .typeError

/-! ## Claim C8 -/

/-- Claim C8 (code bug): when `bot_config.agent.max_tool_loop` is absent
from the configuration, `get_config` returns `None` and `int(None)`
raises `TypeError`, which the `except ValueError` handler does not catch
— the turn propagates the exception instead of defaulting to 2 as the
spec (and the code's own comment, "defaults to 2 if not a valid
integer") require.  A string value parses to its integer, and a
non-integer *string* does default to 2. -/
theorem claim_C8_max_tool_loop_default :
    get_config (PyVal.vDict []) "bot_config.agent.max_tool_loop" = PyVal.vNone ∧
    get_max_tool_loop (PyVal.vDict []) = .error .typeError ∧
    get_max_tool_loop (PyVal.vDict [("bot_config", .vDict [("agent",
      .vDict [("max_tool_loop", .vStr "2")])])]) = .ok 2 ∧
    get_max_tool_loop (PyVal.vDict [("bot_config", .vDict [("agent",
      .vDict [("max_tool_loop", .vStr "oops")])])]) = .ok 2 :=
  ⟨rfl, rfl, rfl, rfl⟩

/-! ## Agent loop: `MessageProcessor.handle_im_message`
(`src/core/message_manager.py`, lines 195–233)

```python
max_agent_steps = max_tool_loop+1
for _ in range(max_agent_steps):
    llm_resp = await self.llm_api.agent_run(messages)
    if llm_resp:
        if not llm_resp.tool_calls:
            ... dispatch, annotate, append assistant turn ...
            break
        else:
            ... optional dispatch of partial text, execute tools,
                append assistant + tool messages ...
            # falls through: next loop iteration
    else:
        ... append empty assistant turn ...
        break
```

The loop's control flow depends only on whether the `agent_run`
collaborator returned a response and whether that response carries tool
calls, so the environment is modelled as the sequence of responses
`agent_run : ℕ → Option LLMResp` (indexed by how many calls were made so
far, `none` = falsy response).  The model counts the `agent_run` calls;
dispatch and memory effects do not influence the count or termination. -/

/-- One tool call requested by the model (OpenAI wire format: id, function
name, raw JSON arguments string). -/
structure ToolCall where
  id : String
  name : String
  arguments : String
  deriving DecidableEq, Repr

/-- The slice of `LLMResponse`
(`src/core/provider/llm_model.py`) that the agent loop's control flow
reads. -/
structure LLMResp where
  text_response : String
  tool_calls : List ToolCall
  deriving Repr

/-- The agent loop, returning the total number of `agent_run` calls made:
`steps` iterations remain, `calls_made` calls were already made. -/
def agent_loop_calls (agent_run : ℕ → Option LLMResp) : ℕ → ℕ → ℕ
  | 0, calls_made => calls_made
  | steps + 1, calls_made =>
    match agent_run calls_made with
    | none => calls_made + 1
    | some llm_resp =>
      if llm_resp.tool_calls.isEmpty then calls_made + 1
      else agent_loop_calls agent_run steps (calls_made + 1)

/-- LLM calls made by one agent turn: the loop runs for
`max_agent_steps = max_tool_loop + 1` iterations starting from zero
calls. -/
def handle_im_llm_calls (agent_run : ℕ → Option LLMResp) (max_tool_loop : ℕ) : ℕ :=
  agent_loop_calls agent_run (max_tool_loop + 1) 0

/-! ## Claim C1 -/

/-- The loop adds at most `steps` calls to those already made. -/
lemma agent_loop_calls_le (agent_run : ℕ → Option LLMResp) (steps calls_made : ℕ) :
    agent_loop_calls agent_run steps calls_made ≤ calls_made + steps := by
  induction steps generalizing calls_made with
  | zero => simp [agent_loop_calls]
  | succ n ih =>
    unfold agent_loop_calls
    rcases hr : agent_run calls_made with _ | llm_resp
    · simp only [hr]
      omega
    · simp only [hr]
      by_cases h : llm_resp.tool_calls.isEmpty
      · rw [if_pos h]; omega
      · rw [if_neg h]
        have := ih (calls_made + 1)
        omega

/-- If every response requests a tool, the loop never breaks early and
uses all its iterations. -/
lemma agent_loop_calls_always_tool (agent_run : ℕ → Option LLMResp)
    (h : ∀ n, ∃ r, agent_run n = some r ∧ ¬ r.tool_calls.isEmpty)
    (steps calls_made : ℕ) :
    agent_loop_calls agent_run steps calls_made = calls_made + steps := by
  induction steps generalizing calls_made with
  | zero => simp [agent_loop_calls]
  | succ n ih =>
    obtain ⟨r, hr, hrt⟩ := h calls_made
    unfold agent_loop_calls
    simp only [hr]
    rw [if_neg hrt, ih (calls_made + 1)]
    omega

/-- Claim C1: every agent turn makes at most `max_tool_loop + 1` LLM
calls and terminates (the loop is a bounded iteration, total by
construction); with a model that requests a tool on every step, exactly
`max_tool_loop + 1` calls are made — in particular 3 calls for
`max_tool_loop = 2` — and the loop then stops. -/
theorem claim_C1_agent_loop_bound (agent_run : ℕ → Option LLMResp)
    (max_tool_loop : ℕ) :
    handle_im_llm_calls agent_run max_tool_loop ≤ max_tool_loop + 1 ∧
    ((∀ n, ∃ r, agent_run n = some r ∧ ¬ r.tool_calls.isEmpty) →
      handle_im_llm_calls agent_run max_tool_loop = max_tool_loop + 1) := by
  constructor
  · have := agent_loop_calls_le agent_run (max_tool_loop + 1) 0
    unfold handle_im_llm_calls
    omega
  · intro h
    unfold handle_im_llm_calls
    rw [agent_loop_calls_always_tool agent_run h (max_tool_loop + 1) 0]
    omega

/-- Witness for claim C1: a model that always requests the tool `"t"`
with `max_tool_loop = 2` makes exactly 3 calls. -/
theorem claim_C1_agent_loop_bound_witness :
    (handle_im_llm_calls (fun _ => some ⟨"", [⟨"1", "t", "{}"⟩]⟩) 2 ≤ 2 + 1 ∧
      handle_im_llm_calls (fun _ => some ⟨"", [⟨"1", "t", "{}"⟩]⟩) 2 = 2 + 1) ∧
    handle_im_llm_calls (fun _ => some ⟨"", [⟨"1", "t", "{}"⟩]⟩) 2 = 3 :=
  ⟨⟨(claim_C1_agent_loop_bound (fun _ => some ⟨"", [⟨"1", "t", "{}"⟩]⟩) 2).1,
    (claim_C1_agent_loop_bound (fun _ => some ⟨"", [⟨"1", "t", "{}"⟩]⟩) 2).2
      (fun n => ⟨⟨"", [⟨"1", "t", "{}"⟩]⟩, rfl, by decide⟩)⟩,
   by decide⟩

/-! ## Provider tool execution

`SiliconflowCNProvider.chat`
(`src/core/provider/src/siliconflow_cn/provider.py`, lines 55–98):

```python
for tool_call in message.tool_calls:
    name = tool_call.function.name
    try:
        args = json.loads(tool_call.function.arguments)
    except json.JSONDecodeError:
        args = {}
    if request.tool_funcs and name in request.tool_funcs:
        try:
            result = await request.tool_funcs[name](**args)
        except Exception as e:
            result = {"error": f"Failed to call tool '{name}': {e}"}
    else:
        result = {"error": f"Tool {name} not implemented"}
    tool_messages.append({"role": "tool", "tool_call_id": tool_call.id,
                          "name": name, "content": str(result)})
```

`OpenAIProvider.chat`
(`src/core/provider/src/openai_provider.py`, lines 54–86) runs the same
loop but with *no* `try` around `json.loads` or the tool invocation; the
enclosing `try` catches only `APIStatusError` / `APITimeoutError` /
`APIConnectionError`, so a `JSONDecodeError` or a raising tool propagates
out of `chat`.

`json.loads` is modelled as `json_loads : String → Option Args` (`none` =
`JSONDecodeError`; a successfully parsed argument object is the kwargs
dict `Args`), the registered tool table as
`tool_funcs : String → Option (Args → Except String String)` (a tool
returns its `str(result)` rendering or raises with a message). -/

/-- Keyword arguments parsed from a tool call's JSON arguments. -/
abbrev Args := List (String × String)

/-- The content of a `tool`-role message: `str(result)` where `result` is
either the tool's return value or an `{"error": ...}` dict. -/
inductive ToolOutcome : Type where
  | result : String → ToolOutcome
  | error : String → ToolOutcome
  deriving DecidableEq, Repr

/-- One `tool`-role message appended per requested call. -/
structure ToolMessage where
  tool_call_id : String
  name : String
  content : ToolOutcome
  deriving DecidableEq, Repr

/-- Failure modes of the unguarded OpenAI-provider loop. -/
inductive ToolLoopErr : Type where
  | jsonDecodeError
  | toolRaised : String → ToolLoopErr
  deriving DecidableEq, Repr

/-- The SiliconflowCN provider's handling of one tool call: malformed
JSON degrades to empty kwargs, an unknown or raising tool produces an
`error` content; exactly one tool message results. -/
def siliconflow_execute_tool_call (json_loads : String → Option Args)
    (tool_funcs : String → Option (Args → Except String String))
    (tool_call : ToolCall) : ToolMessage :=
  let args := (json_loads tool_call.arguments).getD []
  let result : ToolOutcome :=
    match tool_funcs tool_call.name with
    | some f =>
      match f args with
      | .ok r => .result r
      | .error e => .error ("Failed to call tool '" ++ tool_call.name ++ "': " ++ e)
    | none => .error ("Tool " ++ tool_call.name ++ " not implemented")
  ⟨tool_call.id, tool_call.name, result⟩

/-- The SiliconflowCN provider's tool loop: one message per call, total
(never raises). -/
def siliconflow_execute_tool_calls (json_loads : String → Option Args)
    (tool_funcs : String → Option (Args → Except String String))
    (tool_calls : List ToolCall) : List ToolMessage :=
  tool_calls.map (siliconflow_execute_tool_call json_loads tool_funcs)

/-- The OpenAI provider's tool loop: `json.loads` and the tool invocation
are unguarded, so their exceptions abort the loop and propagate. -/
def openai_execute_tool_calls (json_loads : String → Option Args)
    (tool_funcs : String → Option (Args → Except String String)) :
    List ToolCall → Except ToolLoopErr (List ToolMessage)
  | [] => .ok []
  | tool_call :: rest =>
    match json_loads tool_call.arguments with
    | none => .error .jsonDecodeError
    | some args =>
      match tool_funcs tool_call.name with
      | some f =>
        match f args with
        | .ok r =>
          (openai_execute_tool_calls json_loads tool_funcs rest).map
            (⟨tool_call.id, tool_call.name, .result r⟩ :: ·)
        | .error e => .error (.toolRaised e)
      | none =>
        (openai_execute_tool_calls json_loads tool_funcs rest).map
          (⟨tool_call.id, tool_call.name,
            .error ("工具 " ++ tool_call.name ++ " 未实现")⟩ :: ·)

/-! ## Claim C9 -/

/-- Counterexample to claim C9 as stated: in `OpenAIProvider.chat`, a
tool call whose JSON arguments do not parse raises `JSONDecodeError`
(uncaught by the provider's `except` clauses) instead of degrading to an
empty-kwargs call, and a registered tool that raises propagates its
exception instead of yielding an `{"error": ...}` message. -/
theorem claim_C9_counterexample :
    openai_execute_tool_calls (fun _ => none)
      (fun n => if n = "t" then some (fun _ => .ok "fine") else none)
      [⟨"1", "t", "not json"⟩] = .error .jsonDecodeError ∧
    openai_execute_tool_calls (fun _ => some [])
      (fun n => if n = "t" then some (fun _ => .error "boom") else none)
      [⟨"1", "t", "{}"⟩] = .error (.toolRaised "boom") :=
  ⟨rfl, rfl⟩

/-- Claim C9 (amended): the SiliconflowCN provider satisfies the claim —
one tool-role message per requested call, `{"error": ...}` content when
the tool name is unregistered or the tool raises, malformed JSON
degrading to an empty-kwargs invocation, no exception propagating; the
OpenAI provider, by contrast, propagates a `JSONDecodeError` on malformed
arguments and a raising tool's exception. -/
theorem claim_C9_tool_result_messages (json_loads : String → Option Args)
    (tool_funcs : String → Option (Args → Except String String))
    (tool_calls : List ToolCall) (tool_call : ToolCall) :
    (siliconflow_execute_tool_calls json_loads tool_funcs tool_calls).length =
      tool_calls.length ∧
    (siliconflow_execute_tool_call json_loads tool_funcs tool_call).tool_call_id =
      tool_call.id ∧
    (tool_funcs tool_call.name = none →
      (siliconflow_execute_tool_call json_loads tool_funcs tool_call).content =
        .error ("Tool " ++ tool_call.name ++ " not implemented")) ∧
    (∀ f e, tool_funcs tool_call.name = some f →
      f ((json_loads tool_call.arguments).getD []) = .error e →
      (siliconflow_execute_tool_call json_loads tool_funcs tool_call).content =
        .error ("Failed to call tool '" ++ tool_call.name ++ "': " ++ e)) ∧
    (∀ f, json_loads tool_call.arguments = none → tool_funcs tool_call.name = some f →
      (siliconflow_execute_tool_call json_loads tool_funcs tool_call).content =
        (match f [] with
          | .ok r => .result r
          | .error e =>
            .error ("Failed to call tool '" ++ tool_call.name ++ "': " ++ e))) ∧
    (json_loads tool_call.arguments = none →
      openai_execute_tool_calls json_loads tool_funcs (tool_call :: tool_calls) =
        .error .jsonDecodeError) ∧
    (∀ f e args, json_loads tool_call.arguments = some args →
      tool_funcs tool_call.name = some f → f args = .error e →
      openai_execute_tool_calls json_loads tool_funcs (tool_call :: tool_calls) =
        .error (.toolRaised e)) := by
  refine ⟨by simp [siliconflow_execute_tool_calls], rfl, ?_, ?_, ?_, ?_, ?_⟩
  · intro h
    simp only [siliconflow_execute_tool_call, h]
  · intro f e hf hfe
    simp only [siliconflow_execute_tool_call, hf, hfe]
  · intro f hj hf
    simp only [siliconflow_execute_tool_call, hj, hf, Option.getD_none]
  · intro hj
    simp only [openai_execute_tool_calls, hj]
  · intro f e args hj hf hfe
    simp only [openai_execute_tool_calls, hj, hf, hfe]

/-- Witness for claim C9 (amended): one known raising tool, one unknown
tool, one malformed-JSON call, all at concrete inputs. -/
theorem claim_C9_tool_result_messages_witness :
    ((fun n => if n = "t" then some (fun _ => Except.error "boom") else none :
        String → Option (Args → Except String String)) "u" = none ∧
      (siliconflow_execute_tool_call (fun _ => none)
        (fun n => if n = "t" then some (fun _ => .error "boom") else none)
        ⟨"2", "u", "{}"⟩).content = .error ("Tool " ++ "u" ++ " not implemented")) ∧
    ((fun _ => none : String → Option Args) "not json" = none ∧
      openai_execute_tool_calls (fun _ => none)
        (fun n => if n = "t" then some (fun _ => .error "boom") else none)
        (⟨"1", "t", "not json"⟩ :: [⟨"2", "u", "{}"⟩]) = .error .jsonDecodeError) :=
  ⟨⟨rfl,
    (claim_C9_tool_result_messages (fun _ => none)
      (fun n => if n = "t" then some (fun _ => .error "boom") else none)
      [] ⟨"2", "u", "{}"⟩).2.2.1 rfl⟩,
   ⟨rfl,
    (claim_C9_tool_result_messages (fun _ => none)
      (fun n => if n = "t" then some (fun _ => .error "boom") else none)
      [⟨"2", "u", "{}"⟩] ⟨"1", "t", "not json"⟩).2.2.2.2.2.1 rfl⟩⟩

/-! ## Inbound buffer / debounce: `MessageProcessor.handle_im_message`
(`src/core/message_manager.py`, lines 130–149)

```python
async with buffer_lock:
    if sid not in self.message_buffer:
        self.message_buffer[sid] = []
    self.message_buffer[sid].append(msg)
    msg_amount = len(self.message_buffer[sid])

if msg_amount < self.max_buffer_messages:
    await asyncio.sleep(self.max_message_interval)
if len(self.message_buffer[sid]) == msg_amount:
    async with buffer_lock:
        message_processing = self.message_buffer[sid][:msg_amount]
        self.message_buffer[sid] = self.message_buffer[sid][msg_amount:]
else:
    return None
```

Single-threaded cooperative concurrency: the only suspension point inside
this fragment is the `asyncio.sleep` (an uncontended `asyncio.Lock`
acquisition does not yield, and the buffer lock is never held across a
suspension).  So each handler invocation for one session key consists of
at most two atomic blocks:

* **enqueue** — append the event, record `msg_amount = len(buffer)`; if
  `msg_amount ≥ max_buffer_messages` the sleep is skipped and the length
  check runs in the same atomic block (and trivially succeeds, flushing
  the whole buffer);
* **check** (only when the invocation slept) — if the buffer length still
  equals the recorded `msg_amount`, slice off the first `msg_amount`
  events as the processed batch, else do nothing.

We model a burst of `k` events for one session key, invocation `i`
handling event `i`.  The state is the session's buffer, each pending
invocation's recorded `msg_amount` (`none` = not yet enqueued, or check
already consumed), and the list of flushed batches. -/

/-- Buffer/debounce state for one session key during a burst. -/
structure BufState where
  buffer : List ℕ
  recorded : ℕ → Option ℕ
  batches : List (List ℕ)

/-- An atomic block of one handler invocation. -/
inductive BufStep : Type where
  | enq : ℕ → BufStep
  | chk : ℕ → BufStep
  deriving DecidableEq, Repr

/-- Pointwise update of the recorded `msg_amount` bookkeeping. -/
def setRec (rec : ℕ → Option ℕ) (i : ℕ) (v : Option ℕ) : ℕ → Option ℕ :=
  fun j => if j = i then v else rec j

/-- The `if len(self.message_buffer[sid]) == msg_amount` check followed by
the slice-and-clear; no-op when the length changed. -/
def doCheck (s : BufState) (msg_amount : ℕ) : BufState :=
  if s.buffer.length = msg_amount then
    { s with buffer := s.buffer.drop msg_amount,
             batches := s.batches ++ [s.buffer.take msg_amount] }
  else s

/-- One atomic block.  `enq i`: append event `i` and record the length;
when the recorded length reaches `max_buffer_messages` (`cap`) the sleep
is skipped and the check runs immediately in the same block.  `chk i`:
the post-sleep check of invocation `i` (a no-op if that invocation's
check was already consumed by the immediate path). -/
def bufStep (cap : ℕ) (s : BufState) : BufStep → BufState
  | .enq i =>
    if (s.buffer ++ [i]).length < cap then
      { s with buffer := s.buffer ++ [i],
               recorded := setRec s.recorded i (some (s.buffer ++ [i]).length) }
    else
      doCheck { s with buffer := s.buffer ++ [i], recorded := setRec s.recorded i none }
        (s.buffer ++ [i]).length
  | .chk i =>
    match s.recorded i with
    | none => s
    | some msg_amount => doCheck { s with recorded := setRec s.recorded i none } msg_amount

/-- Run a schedule of atomic blocks from a state. -/
def bufRun (cap : ℕ) : List BufStep → BufState → BufState
  | [], s => s
  | step :: rest, s => bufRun cap rest (bufStep cap s step)

/-- The interleavings realizable by a burst of `k` events on one session
key, each arriving within less than `max_message_interval` of the
previous one (`e` enqueues and `c` checks already executed).  The burst
timing forces exactly these ordering facts:

* enqueues happen in arrival order `0, 1, …, k-1`;
* post-sleep checks happen in the same order (invocation `i` wakes
  `max_message_interval` after its enqueue, and enqueues are ordered);
* invocation `i`'s check wakes only after event `i+1` has been enqueued
  (event `i+1` arrives — and, the admission semaphore being FIFO, is
  appended — strictly less than `max_message_interval` after event `i`'s
  append, while the check fires a full interval after it); for the last
  invocation `i = k-1` there is no later event and only its own enqueue
  precedes its check — hence the bound `min (i+1) (k-1)`.

Every invocation contributes its `chk` block; for an invocation whose
check was consumed by the skipped-sleep immediate path the block is a
no-op. -/
def validFrom (k : ℕ) : List BufStep → ℕ → ℕ → Bool
  | [], e, c => e == k && c == k
  | .enq i :: rest, e, c => i == e && decide (e < k) && validFrom k rest (e + 1) c
  | .chk i :: rest, e, c =>
      i == c && decide (c < k) && decide (min (c + 1) (k - 1) < e) &&
        validFrom k rest e (c + 1)

/-- Whether the (unique) flush has already happened after `e` enqueues
and `c` checks: on the immediate path (`cap = k`) it is fused with the
last enqueue, otherwise it is the last invocation's check. -/
def burst_fired (k cap e c : ℕ) : Prop :=
  (cap = k ∧ e = k) ∨ (cap ≠ k ∧ c = k)

instance (k cap e c : ℕ) : Decidable (burst_fired k cap e c) :=
  if h : (cap = k ∧ e = k) ∨ (cap ≠ k ∧ c = k) then .isTrue h else .isFalse h

/-- The recorded-`msg_amount` table after `e` enqueues and `c` checks of
a burst with `k ≤ cap`: invocation `i` holds `some (i+1)` exactly when it
has enqueued, its check is still pending, and it took the sleeping
path. -/
def recFun (cap e c : ℕ) : ℕ → Option ℕ :=
  fun i => if i < e ∧ c ≤ i ∧ i + 1 < cap then some (i + 1) else none

/-- The buffer state reached after any valid prefix with `e` enqueues and
`c` checks (burst of `k ≤ cap` events). -/
def invState (k cap e c : ℕ) : BufState :=
  if burst_fired k cap e c then ⟨[], recFun cap e c, [List.range k]⟩
  else ⟨List.range e, recFun cap e c, []⟩

/-! ## Claim C2: invariant lemmas -/

/-- Introduction form for `burst_fired` keeping the statement folded. -/
lemma burst_fired_of {k cap e c : ℕ}
    (h : (cap = k ∧ e = k) ∨ (cap ≠ k ∧ c = k)) : burst_fired k cap e c := h

/-- Componentwise equality of buffer states. -/
lemma BufState.ext' (s t : BufState) (h1 : s.buffer = t.buffer)
    (h2 : s.recorded = t.recorded) (h3 : s.batches = t.batches) : s = t := by
  cases s; cases t
  cases h1; cases h2; cases h3
  rfl

/-- A `chk` block of an invocation with no pending check is a no-op. -/
lemma bufStep_chk_none (cap : ℕ) (s : BufState) (i : ℕ)
    (h : s.recorded i = none) : bufStep cap s (.chk i) = s := by
  simp only [bufStep, h]

/-- A `chk` block of an invocation with pending `msg_amount = n` runs the
length check. -/
lemma bufStep_chk_some (cap : ℕ) (s : BufState) (i n : ℕ)
    (h : s.recorded i = some n) :
    bufStep cap s (.chk i) =
      doCheck { s with recorded := setRec s.recorded i none } n := by
  simp only [bufStep, h]

/-- Recording `msg_amount = e + 1` for the freshly enqueued invocation
`e` (sleeping path). -/
lemma recFun_record (cap e c : ℕ) (hcle : c ≤ e) (h2 : e + 1 < cap) :
    setRec (recFun cap e c) e (some (e + 1)) = recFun cap (e + 1) c := by
  funext i
  simp only [setRec, recFun]
  by_cases hie : i = e
  · rw [if_pos hie]
    subst hie
    split_ifs <;> first | rfl | (exfalso; omega)
  · rw [if_neg hie]
    split_ifs <;> first | rfl | (exfalso; omega)

/-- The immediate path consumes invocation `e`'s check at enqueue time
(`cap = e + 1`). -/
lemma recFun_record_skip (cap e c : ℕ) (hcap : cap = e + 1) :
    setRec (recFun cap e c) e none = recFun cap (e + 1) c := by
  funext i
  simp only [setRec, recFun]
  by_cases hie : i = e
  · rw [if_pos hie]
    subst hie
    split_ifs <;> first | rfl | (exfalso; omega)
  · rw [if_neg hie]
    split_ifs <;> first | rfl | (exfalso; omega)

/-- Consuming invocation `c`'s pending check. -/
lemma recFun_consume (cap e c : ℕ) :
    setRec (recFun cap e c) c none = recFun cap e (c + 1) := by
  funext i
  simp only [setRec, recFun]
  by_cases hic : i = c
  · rw [if_pos hic]
    subst hic
    split_ifs <;> first | rfl | (exfalso; omega)
  · rw [if_neg hic]
    split_ifs <;> first | rfl | (exfalso; omega)

/-- When invocation `c` holds no pending check, the table already looks
like the one with `c + 1` checks done. -/
lemma recFun_noop (cap e c : ℕ) (h : recFun cap e c c = none) :
    recFun cap e c = recFun cap e (c + 1) := by
  funext i
  by_cases hic : i = c
  · subst hic
    rw [h]
    simp only [recFun]
    split_ifs <;> first | rfl | (exfalso; omega)
  · simp only [recFun]
    split_ifs <;> first | rfl | (exfalso; omega)

/-- Enqueue transition: executing the `enq e` block from the invariant
state for `(e, c)` yields the invariant state for `(e + 1, c)`. -/
lemma burst_enq_step (k cap e c : ℕ) (hk : 1 ≤ k) (hcap : k ≤ cap) (hek : e < k)
    (hc : c ≤ k) (hH : 1 ≤ c → min c (k - 1) < e) :
    bufStep cap (invState k cap e c) (.enq e) = invState k cap (e + 1) c := by
  have hcle : c ≤ e := by
    by_cases h0 : 1 ≤ c
    · have := hH h0; omega
    · omega
  have hnf : ¬ burst_fired k cap e c := by
    rintro (⟨h1, h2⟩ | ⟨h1, h2⟩)
    · omega
    · have := hH (by omega)
      omega
  have hlen : (List.range e ++ [e]).length = e + 1 := by simp
  unfold invState
  rw [if_neg hnf]
  simp only [bufStep]
  rw [hlen]
  by_cases h2 : e + 1 < cap
  · rw [if_pos h2]
    have hnf2 : ¬ burst_fired k cap (e + 1) c := by
      rintro (⟨h3, h4⟩ | ⟨h3, h4⟩)
      · omega
      · have := hH (by omega)
        omega
    rw [if_neg hnf2]
    refine BufState.ext' _ _ ?_ ?_ ?_
    · exact Eq.symm (List.range_succ e)
    · exact recFun_record cap e c hcle h2
    · rfl
  · rw [if_neg h2]
    have hek1 : e + 1 = k := by omega
    have hcapk : cap = k := by omega
    simp only [doCheck]
    rw [hlen, if_pos rfl]
    rw [if_pos (burst_fired_of (Or.inl ⟨hcapk, hek1⟩))]
    refine BufState.ext' _ _ ?_ ?_ ?_
    · exact List.drop_eq_nil_of_le (by simp)
    · exact recFun_record_skip cap e c (by omega)
    · show [] ++ [(List.range e ++ [e]).take (e + 1)] = [List.range k]
      rw [List.nil_append, List.take_of_length_le (by simp), ← List.range_succ]
      have hsk : e.succ = k := hek1
      rw [hsk]

/-- Check transition: executing the `chk c` block from the invariant
state for `(e, c)` yields the invariant state for `(e, c + 1)`. -/
lemma burst_chk_step (k cap e c : ℕ) (hk : 1 ≤ k) (hcap : k ≤ cap) (he : e ≤ k)
    (hck : c < k) (hmin : min (c + 1) (k - 1) < e) :
    bufStep cap (invState k cap e c) (.chk c) = invState k cap e (c + 1) := by
  have hce : c < e := by omega
  by_cases hf : burst_fired k cap e c
  · -- flush already happened (fused with the last enqueue, `cap = k`):
    -- the stale check sees an empty buffer and aborts
    have hcapk : cap = k := by
      rcases hf with h | h
      · exact h.1
      · omega
    have heqk : e = k := by
      rcases hf with h | h
      · exact h.2
      · omega
    unfold invState
    rw [if_pos hf, if_pos (burst_fired_of (Or.inl ⟨hcapk, heqk⟩))]
    by_cases hcc : c + 1 < cap
    · have hval : recFun cap e c c = some (c + 1) := by
        simp only [recFun]
        rw [if_pos ⟨hce, le_refl c, hcc⟩]
      rw [bufStep_chk_some cap _ c (c + 1) hval]
      simp only [doCheck]
      rw [if_neg (by simp :
        ¬ (([] : List ℕ).length = c + 1))]
      refine BufState.ext' _ _ rfl ?_ rfl
      exact recFun_consume cap e c
    · have hval : recFun cap e c c = none := by
        simp only [recFun]
        rw [if_neg (by omega)]
      rw [bufStep_chk_none cap _ c hval]
      refine BufState.ext' _ _ rfl ?_ rfl
      exact recFun_noop cap e c hval
  · -- no flush yet: the buffer holds the first `e` events
    have hcc : c + 1 < cap := by
      by_contra hcc
      exact hf (burst_fired_of (Or.inl ⟨by omega, by omega⟩))
    unfold invState
    rw [if_neg hf]
    have hval : recFun cap e c c = some (c + 1) := by
      simp only [recFun]
      rw [if_pos ⟨hce, le_refl c, hcc⟩]
    rw [bufStep_chk_some cap _ c (c + 1) hval]
    simp only [doCheck]
    by_cases he1 : e = c + 1
    · -- the last invocation's check: it flushes the whole burst
      have heqk : e = k := by omega
      have hcapne : cap ≠ k := by omega
      rw [if_pos (by simp [he1] : (List.range e).length = c + 1)]
      rw [if_pos (burst_fired_of (Or.inr ⟨hcapne, by omega⟩))]
      refine BufState.ext' _ _ ?_ ?_ ?_
      · exact List.drop_eq_nil_of_le (by simp [he1])
      · exact recFun_consume cap e c
      · show [] ++ [(List.range e).take (c + 1)] = [List.range k]
        rw [List.nil_append, List.take_of_length_le (by simp [he1]), heqk]
    · -- stale check: the buffer has grown past `c + 1`, abort
      rw [if_neg (by simp; omega : ¬ ((List.range e).length = c + 1))]
      have hnf2 : ¬ burst_fired k cap e (c + 1) := by
        rintro (⟨h3, h4⟩ | ⟨h3, h4⟩)
        · exact hf (burst_fired_of (Or.inl ⟨h3, h4⟩))
        · omega
      rw [if_neg hnf2]
      refine BufState.ext' _ _ rfl ?_ rfl
      exact recFun_consume cap e c

/-- Before any step of the burst has run, the invariant state is the
initial state: empty buffer, no recorded checks, no flushed batches. -/
lemma invState_init (k cap : ℕ) (hk : 1 ≤ k) :
    invState k cap 0 0 = ⟨[], fun _ => none, []⟩ := by
  unfold invState
  rw [if_neg (by rintro (⟨h1, h2⟩ | ⟨h1, h2⟩) <;> omega :
    ¬ burst_fired k cap 0 0)]
  refine BufState.ext' _ _ ?_ ?_ rfl
  · exact List.range_zero
  · funext i
    simp [recFun]

/-- The invariant is preserved along every valid remainder of the
schedule, so the run ends with exactly the single full-burst batch. -/
lemma bufRun_burst (k cap : ℕ) (hk : 1 ≤ k) (hcap : k ≤ cap) :
    ∀ (sched : List BufStep) (e c : ℕ), e ≤ k → c ≤ k →
      (1 ≤ c → min c (k - 1) < e) →
      validFrom k sched e c = true →
      (bufRun cap sched (invState k cap e c)).batches = [List.range k] := by
  intro sched
  induction sched with
  | nil =>
    intro e c he hc hH hv
    simp only [validFrom, Bool.and_eq_true, beq_iff_eq] at hv
    obtain ⟨he', hc'⟩ := hv
    have hfired : burst_fired k cap e c := by
      by_cases hck : cap = k
      · exact Or.inl ⟨hck, he'⟩
      · exact Or.inr ⟨hck, hc'⟩
    unfold bufRun invState
    rw [if_pos hfired]
  | cons step rest ih =>
    intro e c he hc hH hv
    cases step with
    | enq i =>
      simp only [validFrom, Bool.and_eq_true, beq_iff_eq, decide_eq_true_eq] at hv
      obtain ⟨⟨hie, hek⟩, hrest⟩ := hv
      subst hie
      unfold bufRun
      rw [burst_enq_step k cap i c hk hcap hek hc hH]
      exact ih (i + 1) c (by omega) hc (fun h1 => by have := hH h1; omega) hrest
    | chk i =>
      simp only [validFrom, Bool.and_eq_true, beq_iff_eq, decide_eq_true_eq] at hv
      obtain ⟨⟨⟨hic, hck⟩, hminc⟩, hrest⟩ := hv
      subst hic
      unfold bufRun
      rw [burst_chk_step k cap e i hk hcap he hck hminc]
      exact ih e (i + 1) he (by omega) (fun _ => hminc) hrest

/-- Counterexample to claim C2 as stated: with batch cap
`max_buffer_messages = 1` and a burst of `k = 2` events (each within less
than `max_message_interval` of the previous), *each* enqueue reaches the
cap, skips the wait and flushes immediately — two flushes of one event
each, not one flush of the whole burst. -/
theorem claim_C2_counterexample :
    validFrom 2 [.enq 0, .enq 1, .chk 0, .chk 1] 0 0 = true ∧
    (bufRun 1 [.enq 0, .enq 1, .chk 0, .chk 1]
      ⟨[], fun _ => none, []⟩).batches = [[0], [1]] ∧
    ([[0], [1]] : List (List ℕ)) ≠ [List.range 2] :=
  ⟨rfl, rfl, by decide⟩

/-- Claim C2 (amended): for every burst of `k ≥ 1` events enqueued for
the same session key, each within less than `max_message_interval` of the
previous one, and `k` at most the batch cap `max_buffer_messages`, every
handler interleaving the burst timing can produce ends with exactly one
flush, processing all `k` events as a single batch in arrival order — no
event is processed twice and none is dropped. -/
theorem claim_C2_burst_single_flush (k cap : ℕ) (sched : List BufStep)
    (hk : 1 ≤ k) (hcap : k ≤ cap) (hv : validFrom k sched 0 0 = true) :
    (bufRun cap sched ⟨[], fun _ => none, []⟩).batches = [List.range k] := by
  rw [← invState_init k cap hk]
  exact bufRun_burst k cap hk hcap sched 0 0 (by omega) (by omega)
    (by omega) hv

/-- Witness for claim C2 (amended): three events, cap 5, with the third
enqueue racing between the first and second invocations' checks; the one
flush takes all three events. -/
theorem claim_C2_burst_single_flush_witness :
    ((1 : ℕ) ≤ 3 ∧ (3 : ℕ) ≤ 5 ∧
      validFrom 3 [.enq 0, .enq 1, .chk 0, .enq 2, .chk 1, .chk 2] 0 0 = true) ∧
    (bufRun 5 [.enq 0, .enq 1, .chk 0, .enq 2, .chk 1, .chk 2]
      ⟨[], fun _ => none, []⟩).batches = [List.range 3] :=
  ⟨⟨by decide, by decide, rfl⟩,
   claim_C2_burst_single_flush 3 5 [.enq 0, .enq 1, .chk 0, .enq 2, .chk 1, .chk 2]
     (by decide) (by decide) rfl⟩

end KiraAI
